/-
  Verification of the pixel compositing engine of the flootay overlay
  video filter (libavfilter/vf_flootay.c).

  Shallow embedding conventions:
  * byte memory is modelled as `Mem := ℕ → ℕ`; a `uint8_t` load is
    `readByte` (value mod 256) and a `uint8_t` store reduces the stored
    value mod 256, exactly as C integer-to-unsigned conversion does;
  * the 32-bit little-endian texel load (`memcpy` into a `uint32_t`)
    is `texelAt`; shifts and masks become division/mod by powers of two;
  * C `int` arithmetic on values far from 2^31 is ℕ/ℤ arithmetic;
    C `int` division truncates toward zero (`Int.tdiv` on ℤ);
  * `double` arithmetic in `rgb_to_yuv` is modelled exactly over ℚ;
  * conversion of a nonnegative `double` to an integer type truncates,
    modelled by `ctrunc` (floor for nonnegative arguments).
-/

import Mathlib

set_option maxHeartbeats 1000000

/-- Byte-addressed memory. -/
abbrev Mem : Type := ℕ → ℕ

/-- A `uint8_t` load: the byte stored at address `a`. -/
def readByte (m : Mem) (a : ℕ) : ℕ := m a % 256

/-- A `uint8_t` store: C reduces the stored integer mod 256. -/
def writeByte (m : Mem) (a v : ℕ) : Mem :=
  fun a2 => if a2 = a then v % 256 else m a2

/-- The little-endian `uint32_t` load
    `memcpy(&src_pixel, src, sizeof src_pixel)` at address `a`. -/
def texelAt (m : Mem) (a : ℕ) : ℕ :=
  readByte m a + 256 * (readByte m (a + 1) +
    256 * (readByte m (a + 2) + 256 * readByte m (a + 3)))

/-- Function `blend_component` (vf_flootay.c line 185):
    `*dst = (*dst * (255 - a) + src * a) / 255;`.
    All three arguments are `uint8_t`, promoted to `int`, so with
    `a ≤ 255` the ℕ subtraction `255 - a` matches the C value. -/
def blend_component (d s a : ℕ) : ℕ := (d * (255 - a) + s * a) / 255

/-- One iteration of the `i` channel loop of `blend_surface_rgb`
    (lines 123-128): channel `i` of the texel at `sa` is
    `(src_pixel >> 8*i) & 0xff`, the blended byte is stored at `da + i`.
    `alpha` is the top byte of the texel (`src_pixel >> 24`). -/
def blendChanRGB (srcm : Mem) (sa i : ℕ) (m : Mem) (da : ℕ) : Mem :=
  writeByte m (da + i)
    ((readByte m (da + i) * (255 - texelAt srcm sa / 16777216) +
      texelAt srcm sa / 256 ^ i % 256 * 255) / 255)

/-- One pixel of the `blend_surface_rgb` double loop (lines 121-129):
    the three-channel loop unrolled. -/
def blendPixelRGB (srcm : Mem) (sa : ℕ) (m : Mem) (da : ℕ) : Mem :=
  blendChanRGB srcm sa 2 (blendChanRGB srcm sa 1 (blendChanRGB srcm sa 0 m da) da) da

/-- The inner `x` loop of `blend_surface_rgb` (lines 120-130), recursing
    on the number of remaining pixels; `src += 4`, `dst += 3` per pixel. -/
def blendRowRGB (srcm : Mem) : ℕ → Mem → ℕ → ℕ → Mem
  | 0, m, _, _ => m
  | n + 1, m, sa, da =>
      blendRowRGB srcm n (blendPixelRGB srcm sa m da) (sa + 4) (da + 3)

/-- The outer `y` loop of `blend_surface_rgb` (lines 119-134); after each
    row the pointers advance by `stride - width*bpp` past the
    `width` pixels already consumed, i.e. each row base advances by
    exactly the stride. -/
def blendRowsRGB (srcm : Mem) (ss ds w : ℕ) : ℕ → Mem → ℕ → ℕ → Mem
  | 0, m, _, _ => m
  | h + 1, m, sa, da =>
      blendRowsRGB srcm ss ds w h (blendRowRGB srcm w m sa da) (sa + ss) (da + ds)

/-- Function `blend_surface_rgb` (lines 107-137): both buffers start at offset 0
    of their respective memories. -/
def blend_surface_rgb (srcm : Mem) (ss : ℕ) (m : Mem) (ds w h : ℕ) : Mem :=
  blendRowsRGB srcm ss ds w h m 0 0

/-- The value the packed-RGB path stores for channel `i`, in terms of the
    raster bytes: `(dst * (255 - alpha) + chan * 255) / 255`. -/
def rgbBlendVal (srcm : Mem) (sa d i : ℕ) : ℕ :=
  (d * (255 - readByte srcm (sa + 3)) + readByte srcm (sa + i) * 255) / 255

/-- Truncation toward zero of a rational: how C converts a `double`
    to an integer type (for values representable in the target type). -/
def ctrunc (x : ℚ) : ℤ := if 0 ≤ x then ⌊x⌋ else -⌊-x⌋

/-- Conversion of a C integer value to `uint8_t`: reduction mod 256
    (C guarantees modulo semantics for conversion to unsigned types;
    for a `double` source outside [0,256) the C conversion is undefined
    and the model takes the mod of the truncated integer). -/
def intToByte (z : ℤ) : ℕ := (z % 256).toNat

/-- The colour-space tags the deriver distinguishes (a representative
    subset of `enum AVColorSpace`; `reserved` stands for every tag with
    no luma coefficients). -/
inductive AVColorSpace where
  | rgb
  | bt709
  | unspecified
  | reserved
  | fcc
  | bt470bg
  | smpte170m
  | smpte240m
  | bt2020_ncl
deriving DecidableEq

/-- The range tags of `enum AVColorRange`. -/
inductive AVColorRange where
  | unspecified
  | mpeg
  | jpeg
deriving DecidableEq

/-- The pixel formats the filter accepts (`pix_fmts`, lines 411-416). -/
inductive AVPixelFormat where
  | bgr24
  | yuv420p
  | yuvj420p
deriving DecidableEq

/-- Struct `AVLumaCoefficients` (cr, cg, cb), exact rationals. -/
structure AVLumaCoefficients where
  cr : ℚ
  cg : ℚ
  cb : ℚ
deriving DecidableEq

/-- Modelled from the spec: `av_csp_luma_coeffs_from_avcsp`
    (libavutil/csp.c, not under src/) maps a colour-space tag to its
    luma coefficients, or fails for tags with no known coefficients
    ("fails if the color-space tag cannot be mapped to a known set of
    luma coefficients").  Coefficient values are the standard published
    ones for each colour space. -/
def av_csp_luma_coeffs_from_avcsp : AVColorSpace → Option AVLumaCoefficients
  | AVColorSpace.bt709 => some ⟨2126/10000, 7152/10000, 722/10000⟩
  | AVColorSpace.fcc => some ⟨30/100, 59/100, 11/100⟩
  | AVColorSpace.bt470bg => some ⟨299/1000, 587/1000, 114/1000⟩
  | AVColorSpace.smpte170m => some ⟨299/1000, 587/1000, 114/1000⟩
  | AVColorSpace.smpte240m => some ⟨212/1000, 701/1000, 87/1000⟩
  | AVColorSpace.bt2020_ncl => some ⟨2627/10000, 6780/10000, 593/10000⟩
  | _ => none

/-- A 3×3 matrix of rationals (`double rgb2yuv[3][3]`). -/
structure Mat3 where
  m00 : ℚ
  m01 : ℚ
  m02 : ℚ
  m10 : ℚ
  m11 : ℚ
  m12 : ℚ
  m20 : ℚ
  m21 : ℚ
  m22 : ℚ
deriving DecidableEq

/-- A 3-vector of rationals (`double rgbd[3]`, `double yuvd[3]`). -/
structure Vec3 where
  v0 : ℚ
  v1 : ℚ
  v2 : ℚ
deriving DecidableEq

/-- Modelled from the spec: `ff_fill_rgb2yuv_table`
    (libavfilter/colorspace.c, not under src/) derives the RGB→YUV
    matrix from the luma coefficients: the luma row is the coefficients
    themselves and the two chroma rows scale (B − Y) resp. (R − Y) into
    [−1/2, 1/2] ("a 3×3 RGB→YUV linear transform matrix (derived from
    the luma coefficients of the video)"). -/
def ff_fill_rgb2yuv_table (c : AVLumaCoefficients) : Mat3 :=
  let bscale : ℚ := (1/2) / (c.cb - 1)
  let rscale : ℚ := (1/2) / (c.cr - 1)
  { m00 := c.cr, m01 := c.cg, m02 := c.cb
    m10 := bscale * c.cr, m11 := bscale * c.cg, m12 := 1/2
    m20 := 1/2, m21 := rscale * c.cg, m22 := rscale * c.cb }

/-- Modelled from the spec: `ff_matrix_mul_3x3_vec`
    (libavfilter/colorspace.c, not under src/): multiply the 3-vector
    of normalized RGB by the transform matrix. -/
def ff_matrix_mul_3x3_vec (mat : Mat3) (v : Vec3) : Vec3 :=
  { v0 := mat.m00 * v.v0 + mat.m01 * v.v1 + mat.m02 * v.v2
    v1 := mat.m10 * v.v0 + mat.m11 * v.v1 + mat.m12 * v.v2
    v2 := mat.m20 * v.v0 + mat.m21 * v.v1 + mat.m22 * v.v2 }

/-- The colorspace fields of `FlootayContext` set by `init_rgb2yuv`. -/
structure FlootayParams where
  rgb2yuv : Mat3
  y_multiply : ℚ
  y_add : ℚ
  uv_multiply : ℚ
  uv_add : ℚ
deriving DecidableEq

/-- Error code `AVERROR(EINVAL)`. -/
def AVERROR_EINVAL : ℤ := -22

/-- Error code `AVERROR_EXTERNAL`, the FFERRTAG of E, X, T, space. -/
def AVERROR_EXTERNAL : ℤ := -542398533

/-- Modelled from the spec: `av_pix_fmt_desc_get` (libavutil, not under
    src/) returns a non-NULL descriptor for every valid pixel format,
    in particular for each of the three formats this filter accepts. -/
def av_pix_fmt_desc_get : AVPixelFormat → Option Unit := fun _ => some ()

/-- Function `init_rgb2yuv` (lines 204-236): default an unspecified colour space
    to SMPTE 170M, look up the luma coefficients (failing with
    `AVERROR(EINVAL)` when unknown), fill the RGB→YUV table and select
    the range constants: limited (MPEG) range scales luma by 219/255
    with offset 16/255 and chroma by 224/255 with offset 128/255; any
    other range tag gets full-range constants 1, 0, 1, 1/2. -/
def init_rgb2yuv (fmt : AVPixelFormat) (csp0 : AVColorSpace)
    (range : AVColorRange) : Except ℤ FlootayParams :=
  match av_pix_fmt_desc_get fmt with
  | none => Except.error AVERROR_EINVAL
  | some _ =>
    let csp := if csp0 = AVColorSpace.unspecified then AVColorSpace.smpte170m
               else csp0
    match av_csp_luma_coeffs_from_avcsp csp with
    | none => Except.error AVERROR_EINVAL
    | some luma =>
      if range = AVColorRange.mpeg then
        Except.ok { rgb2yuv := ff_fill_rgb2yuv_table luma,
                    y_multiply := 219/255, y_add := 16/255,
                    uv_multiply := 224/255, uv_add := 128/255 }
      else
        Except.ok { rgb2yuv := ff_fill_rgb2yuv_table luma,
                    y_multiply := 1, y_add := 0,
                    uv_multiply := 1, uv_add := 1/2 }

/-- Line 155: `a[i] = src_pixel >> 24`. -/
def texelAlpha (p : ℕ) : ℕ := p / 16777216

/-- Lines 156-158: the three colour bytes of an ARGB texel, normalized
    to [0,1] (`rgbd[0..2]`, R then G then B). -/
def texel_rgbd (p : ℕ) : Vec3 :=
  { v0 := ((p / 65536 % 256 : ℕ) : ℚ) / 255
    v1 := ((p / 256 % 256 : ℕ) : ℚ) / 255
    v2 := ((p % 256 : ℕ) : ℚ) / 255 }

/-- Lines 159-163, the unpremultiply step: when the alpha byte is
    nonzero each channel becomes `rgbd[c] * 255 / a[i]`; when it is
    zero `rgbd` is left as loaded. -/
def texel_unpremul (p : ℕ) : Vec3 :=
  if texelAlpha p ≠ 0 then
    { v0 := (texel_rgbd p).v0 * 255 / (texelAlpha p : ℚ)
      v1 := (texel_rgbd p).v1 * 255 / (texelAlpha p : ℚ)
      v2 := (texel_rgbd p).v2 * 255 / (texelAlpha p : ℚ) }
  else texel_rgbd p

/-- Line 164: `ff_matrix_mul_3x3_vec(yuvd, rgbd, flt->rgb2yuv)`. -/
def texel_yuvd (flt : FlootayParams) (p : ℕ) : Vec3 :=
  ff_matrix_mul_3x3_vec flt.rgb2yuv (texel_unpremul p)

/-- Lines 165-166: `yuvd[0] * y_multiply + y_add`. -/
def texel_yq (flt : FlootayParams) (p : ℕ) : ℚ :=
  (texel_yuvd flt p).v0 * flt.y_multiply + flt.y_add

/-- Lines 167-168: `yuvd[1] * uv_multiply + uv_add`. -/
def texel_uq (flt : FlootayParams) (p : ℕ) : ℚ :=
  (texel_yuvd flt p).v1 * flt.uv_multiply + flt.uv_add

/-- Lines 169-170: `yuvd[2] * uv_multiply + uv_add`. -/
def texel_vq (flt : FlootayParams) (p : ℕ) : ℚ :=
  (texel_yuvd flt p).v2 * flt.uv_multiply + flt.uv_add

/-- Line 172 before the `uint8_t` store: `yuvd[0] * 255.0 + 0.5f`
    truncated to an integer. -/
def texel_yInt (flt : FlootayParams) (p : ℕ) : ℤ :=
  ctrunc (texel_yq flt p * 255 + 1/2)

/-- Line 173: the `int` value added to `u_sum`. -/
def texel_uInt (flt : FlootayParams) (p : ℕ) : ℤ :=
  ctrunc (texel_uq flt p * 255 + 1/2)

/-- Line 174: the `int` value added to `v_sum`. -/
def texel_vInt (flt : FlootayParams) (p : ℕ) : ℤ :=
  ctrunc (texel_vq flt p * 255 + 1/2)

/-- The outputs of `rgb_to_yuv`: four luma bytes and four alpha bytes in
    row-major texel order, plus the two averaged chroma bytes. -/
structure YuvBlock where
  y0 : ℕ
  y1 : ℕ
  y2 : ℕ
  y3 : ℕ
  a0 : ℕ
  a1 : ℕ
  a2 : ℕ
  a3 : ℕ
  u : ℕ
  v : ℕ
deriving DecidableEq

/-- Function `rgb_to_yuv` (lines 139-181): reads the 2×2 texel block with
    top-left byte address `sa` (texel (x,y) at `sa + x*4 + y*ss`),
    converts each texel, and averages the four per-texel chroma values
    with C `int` division (`u_sum / 4`, truncating toward zero).
    `*u = ...` stores into a `uint8_t`. -/
def rgb_to_yuv (flt : FlootayParams) (srcm : Mem) (sa ss : ℕ) : YuvBlock :=
  let p0 := texelAt srcm sa
  let p1 := texelAt srcm (sa + 4)
  let p2 := texelAt srcm (sa + ss)
  let p3 := texelAt srcm (sa + ss + 4)
  let u_sum := texel_uInt flt p0 + texel_uInt flt p1 +
    texel_uInt flt p2 + texel_uInt flt p3
  let v_sum := texel_vInt flt p0 + texel_vInt flt p1 +
    texel_vInt flt p2 + texel_vInt flt p3
  { y0 := intToByte (texel_yInt flt p0)
    y1 := intToByte (texel_yInt flt p1)
    y2 := intToByte (texel_yInt flt p2)
    y3 := intToByte (texel_yInt flt p3)
    a0 := texelAlpha p0
    a1 := texelAlpha p1
    a2 := texelAlpha p2
    a3 := texelAlpha p3
    u := intToByte (Int.tdiv u_sum 4)
    v := intToByte (Int.tdiv v_sum 4) }

/-- Function `blend_y` (lines 188-202): blend the four luma samples of a block
    into the luma plane at base `da` with stride `ds`. -/
def blend_y (m : Mem) (da ds : ℕ) (b : YuvBlock) : Mem :=
  let m0 := writeByte m da (blend_component (readByte m da) b.y0 b.a0)
  let m1 := writeByte m0 (da + 1)
    (blend_component (readByte m0 (da + 1)) b.y1 b.a1)
  let m2 := writeByte m1 (da + ds)
    (blend_component (readByte m1 (da + ds)) b.y2 b.a2)
  writeByte m2 (da + ds + 1)
    (blend_component (readByte m2 (da + ds + 1)) b.y3 b.a3)

/-- One 2×2 block of the `blend_surface_yuv` loop (lines 258-274):
    convert the block, blend the four luma samples, average the four
    alphas with `int` division by 4, and blend one chroma sample in
    each chroma plane with the averaged alpha. -/
def blendBlockYUV (flt : FlootayParams) (srcm : Mem) (ss : ℕ)
    (my mu mv : Mem) (ys : ℕ) (sa dya dua dva : ℕ) : Mem × Mem × Mem :=
  let b := rgb_to_yuv flt srcm sa ss
  let my2 := blend_y my dya ys b
  let a_avg := (b.a0 + b.a1 + b.a2 + b.a3) / 4
  let mu2 := writeByte mu dua (blend_component (readByte mu dua) b.u a_avg)
  let mv2 := writeByte mv dva (blend_component (readByte mv dva) b.v a_avg)
  (my2, mu2, mv2)

/-- The inner `x` loop of `blend_surface_yuv` (lines 258-275), recursing
    on the number of remaining 2×2 blocks; per block `src += 8`,
    `dst_y += 2`, `dst_u++`, `dst_v++`. -/
def blendRowYUV (flt : FlootayParams) (srcm : Mem) (ss ys : ℕ) :
    ℕ → Mem → Mem → Mem → ℕ → ℕ → ℕ → ℕ → Mem × Mem × Mem
  | 0, my, mu, mv, _, _, _, _ => (my, mu, mv)
  | n + 1, my, mu, mv, sa, dya, dua, dva =>
      let r := blendBlockYUV flt srcm ss my mu mv ys sa dya dua dva
      blendRowYUV flt srcm ss ys n r.1 r.2.1 r.2.2
        (sa + 8) (dya + 2) (dua + 1) (dva + 1)

/-- The outer `y` loop of `blend_surface_yuv` (lines 257-281), stepping
    two source rows at a time; `(w + 1) / 2` is the number of blocks the
    inner loop runs (`x = 0, 2, ...  < width`).  For the even dimensions
    a 4:2:0 frame guarantees, the end-of-row pointer
    adjustments (`src += src_stride*2 - width*4` after the inner loop
    advanced by `4*width`, etc.) advance each row base by exactly two
    source strides, two luma strides and one chroma stride. -/
def blendRowsYUV (flt : FlootayParams) (srcm : Mem) (ss ys us vs w : ℕ) :
    ℕ → Mem → Mem → Mem → ℕ → ℕ → ℕ → ℕ → Mem × Mem × Mem
  | 0, my, mu, mv, _, _, _, _ => (my, mu, mv)
  | h + 1, my, mu, mv, sa, dya, dua, dva =>
      let r := blendRowYUV flt srcm ss ys ((w + 1) / 2) my mu mv sa dya dua dva
      blendRowsYUV flt srcm ss ys us vs w h r.1 r.2.1 r.2.2
        (sa + 2 * ss) (dya + 2 * ys) (dua + us) (dva + vs)

/-- Function `blend_surface_yuv` (lines 238-284): derive the colorspace
    parameters first — on failure return the error before any
    destination byte is touched — then walk the frame in 2×2 blocks
    (`(h + 1) / 2` block rows for `y = 0, 2, ... < height`). -/
def blend_surface_yuv (fmt : AVPixelFormat) (csp : AVColorSpace)
    (range : AVColorRange) (srcm : Mem) (ss : ℕ) (my : Mem) (ys : ℕ)
    (mu : Mem) (us : ℕ) (mv : Mem) (vs : ℕ) (w h : ℕ) :
    Except ℤ (Mem × Mem × Mem) :=
  match init_rgb2yuv fmt csp range with
  | Except.error e => Except.error e
  | Except.ok flt =>
      Except.ok (blendRowsYUV flt srcm ss ys us vs w ((h + 1) / 2)
        my mu mv 0 0 0 0)

/-- The three outcomes of `flootay_render`. -/
inductive FlootayRenderResult where
  | error
  | empty
  | ok
deriving DecidableEq

/-- The fields of an `AVFrame` the filter reads or writes. -/
structure Frame where
  format : AVPixelFormat
  colorspace : AVColorSpace
  color_range : AVColorRange
  width : ℕ
  height : ℕ
  data0 : Mem
  linesize0 : ℕ
  data1 : Mem
  linesize1 : ℕ
  data2 : Mem
  linesize2 : ℕ

/-- What one `filter_frame` call did: the final state of the frame
    buffer, whether `ff_filter_frame` delivered it downstream, and the
    return code (0 on success). -/
structure FilterOutcome where
  frame : Frame
  delivered : Bool
  ret : ℤ

/-- Function `filter_frame` (lines 286-333) restricted to its effect on the
    frame: on a renderer error, return `AVERROR_EXTERNAL` without
    delivering or touching the frame; on an empty render, deliver the
    frame untouched; on a successful render, dispatch on the pixel
    format (`AV_PIX_FMT_BGR24` → packed path, else planar path) and
    deliver the blended frame, unless the planar path failed, in which
    case its error is returned and the frame — untouched, since the
    failure precedes the blend loop — is not delivered.  (The clearing
    of the overlay raster, lines 294-302, touches only the raster.) -/
def filter_frame (render : FlootayRenderResult) (srcm : Mem) (ss : ℕ)
    (fr : Frame) : FilterOutcome :=
  match render with
  | FlootayRenderResult.error =>
      { frame := fr, delivered := false, ret := AVERROR_EXTERNAL }
  | FlootayRenderResult.empty =>
      { frame := fr, delivered := true, ret := 0 }
  | FlootayRenderResult.ok =>
      if fr.format = AVPixelFormat.bgr24 then
        let d0 := blend_surface_rgb srcm ss fr.data0 fr.linesize0
          fr.width fr.height
        { frame := { fr with data0 := d0 }, delivered := true, ret := 0 }
      else
        match blend_surface_yuv fr.format fr.colorspace fr.color_range
            srcm ss fr.data0 fr.linesize0 fr.data1 fr.linesize1
            fr.data2 fr.linesize2 fr.width fr.height with
        | Except.error e => { frame := fr, delivered := false, ret := e }
        | Except.ok r =>
            { frame := { fr with data0 := r.1, data1 := r.2.1, data2 := r.2.2 },
              delivered := true, ret := 0 }

/-- A texel honouring the premultiplied-alpha encoding: each colour
    byte is at most the alpha byte. -/
def validTexel (p : ℕ) : Prop :=
  p / 65536 % 256 ≤ texelAlpha p ∧ p / 256 % 256 ≤ texelAlpha p ∧
    p % 256 ≤ texelAlpha p

/-- The parameters `init_rgb2yuv` derives for SMPTE 170M, limited
    (MPEG) range. -/
def sdLimitedParams : FlootayParams :=
  { rgb2yuv := ff_fill_rgb2yuv_table ⟨299/1000, 587/1000, 114/1000⟩,
    y_multiply := 219/255, y_add := 16/255,
    uv_multiply := 224/255, uv_add := 128/255 }

/-- The parameters `init_rgb2yuv` derives for SMPTE 170M, full range. -/
def sdFullParams : FlootayParams :=
  { rgb2yuv := ff_fill_rgb2yuv_table ⟨299/1000, 587/1000, 114/1000⟩,
    y_multiply := 1, y_add := 0, uv_multiply := 1, uv_add := 1/2 }

/-- A concrete frame used to instantiate orchestrator facts. -/
def testFrame : Frame :=
  { format := AVPixelFormat.yuv420p, colorspace := AVColorSpace.smpte170m,
    color_range := AVColorRange.mpeg, width := 0, height := 0,
    data0 := fun _ => 0, linesize0 := 0, data1 := fun _ => 0, linesize1 := 0,
    data2 := fun _ => 0, linesize2 := 0 }

/-- The limited-range parameter set built from coefficients `c`. -/
def limitedParamsOf (c : AVLumaCoefficients) : FlootayParams :=
  { rgb2yuv := ff_fill_rgb2yuv_table c, y_multiply := 219/255,
    y_add := 16/255, uv_multiply := 224/255, uv_add := 128/255 }

/-- The full-range parameter set built from coefficients `c`. -/
def fullParamsOf (c : AVLumaCoefficients) : FlootayParams :=
  { rgb2yuv := ff_fill_rgb2yuv_table c, y_multiply := 1,
    y_add := 0, uv_multiply := 1, uv_add := 1/2 }

theorem readByte_lt (m : Mem) (a : ℕ) : readByte m a < 256 :=
  Nat.mod_lt _ (by norm_num)

theorem texelAt_lt (m : Mem) (a : ℕ) : texelAt m a < 2 ^ 32 := by
  have h0 := readByte_lt m a
  have h1 := readByte_lt m (a + 1)
  have h2 := readByte_lt m (a + 2)
  have h3 := readByte_lt m (a + 3)
  unfold texelAt
  omega

/-- Extracting byte 0 of a texel: `pixel & 0xff`. -/
theorem texel_byte0 (m : Mem) (a : ℕ) :
    texelAt m a % 256 = readByte m a := by
  have h0 := readByte_lt m a
  unfold texelAt
  omega

/-- Extracting byte 1 of a texel: `(pixel >> 8) & 0xff`. -/
theorem texel_byte1 (m : Mem) (a : ℕ) :
    texelAt m a / 256 % 256 = readByte m (a + 1) := by
  have h0 := readByte_lt m a
  have h1 := readByte_lt m (a + 1)
  unfold texelAt
  omega

/-- Extracting byte 2 of a texel: `(pixel >> 16) & 0xff`. -/
theorem texel_byte2 (m : Mem) (a : ℕ) :
    texelAt m a / 65536 % 256 = readByte m (a + 2) := by
  have h0 := readByte_lt m a
  have h1 := readByte_lt m (a + 1)
  have h2 := readByte_lt m (a + 2)
  unfold texelAt
  omega

/-- Extracting byte 3 of a texel: `pixel >> 24` (the alpha byte). -/
theorem texel_byte3 (m : Mem) (a : ℕ) :
    texelAt m a / 16777216 = readByte m (a + 3) := by
  have h0 := readByte_lt m a
  have h1 := readByte_lt m (a + 1)
  have h2 := readByte_lt m (a + 2)
  have h3 := readByte_lt m (a + 3)
  unfold texelAt
  omega

/-- C1: `blend_component` replaces the destination byte with exactly
    `⌊(d * (255 - a) + s * a) / 255⌋` (truncating integer division);
    the result is in [0,255] and the intermediate sum is at most
    255 * 255 = 65025, far below `INT_MAX`, so the `int` arithmetic
    never overflows. -/
theorem C1_blend_component_exact (d s a : ℕ)
    (hd : d ≤ 255) (hs : s ≤ 255) (ha : a ≤ 255) :
    blend_component d s a = (d * (255 - a) + s * a) / 255 ∧
    blend_component d s a ≤ 255 ∧
    d * (255 - a) + s * a ≤ 65025 := by
  refine ⟨rfl, ?_, ?_⟩
  · unfold blend_component
    have hsum : d * (255 - a) + s * a ≤ 255 * (255 - a) + 255 * a := by
      have := Nat.mul_le_mul_right (255 - a) hd
      have := Nat.mul_le_mul_right a hs
      omega
    have : 255 * (255 - a) + 255 * a = 255 * 255 := by omega
    omega
  · have := Nat.mul_le_mul_right (255 - a) hd
    have := Nat.mul_le_mul_right a hs
    omega

/-- Witness for C1 at d = 100, s = 200, a = 128. -/
theorem C1_blend_component_exact_witness :
    blend_component 100 200 128 = (100 * (255 - 128) + 200 * 128) / 255 ∧
    blend_component 100 200 128 ≤ 255 ∧
    100 * (255 - 128) + 200 * 128 ≤ 65025 :=
  C1_blend_component_exact 100 200 128 (by decide) (by decide) (by decide)

/-- C9: blending with alpha = 0 returns the destination unchanged and
    blending with alpha = 255 returns the source, for all byte values. -/
theorem C9_blend_component_endpoints (d s : ℕ) :
    blend_component d s 0 = d ∧ blend_component d s 255 = s := by
  constructor
  · unfold blend_component
    simp [Nat.mul_div_cancel]
  · unfold blend_component
    simp [Nat.mul_div_cancel]

theorem rgbBlendVal_le (srcm : Mem) (sa d i : ℕ) (hd : d ≤ 255)
    (hv : readByte srcm (sa + i) ≤ readByte srcm (sa + 3)) :
    rgbBlendVal srcm sa d i ≤ 255 := by
  unfold rgbBlendVal
  have ha := readByte_lt srcm (sa + 3)
  have h1 : d * (255 - readByte srcm (sa + 3)) ≤
      255 * (255 - readByte srcm (sa + 3)) :=
    Nat.mul_le_mul_right _ hd
  have h2 : readByte srcm (sa + i) * 255 ≤ readByte srcm (sa + 3) * 255 :=
    Nat.mul_le_mul_right _ hv
  omega

theorem blendChanRGB_ne (srcm : Mem) (sa i : ℕ) (m : Mem) (da a2 : ℕ)
    (h : a2 ≠ da + i) : blendChanRGB srcm sa i m da a2 = m a2 := by
  unfold blendChanRGB writeByte
  simp [h]

theorem readByte_blendChanRGB_ne (srcm : Mem) (sa i : ℕ) (m : Mem) (da a2 : ℕ)
    (h : a2 ≠ da + i) :
    readByte (blendChanRGB srcm sa i m da) a2 = readByte m a2 := by
  unfold readByte
  rw [blendChanRGB_ne srcm sa i m da a2 h]

theorem blendChanRGB_eq (srcm : Mem) (sa i : ℕ) (m : Mem) (da : ℕ) :
    blendChanRGB srcm sa i m da (da + i) =
      ((readByte m (da + i) * (255 - texelAt srcm sa / 16777216) +
        texelAt srcm sa / 256 ^ i % 256 * 255) / 255) % 256 := by
  unfold blendChanRGB writeByte
  simp

theorem blendPixelRGB_frame (srcm : Mem) (sa : ℕ) (m : Mem) (da a2 : ℕ)
    (h : a2 < da ∨ da + 3 ≤ a2) :
    blendPixelRGB srcm sa m da a2 = m a2 := by
  unfold blendPixelRGB
  rw [blendChanRGB_ne _ _ _ _ _ _ (by omega),
      blendChanRGB_ne _ _ _ _ _ _ (by omega),
      blendChanRGB_ne _ _ _ _ _ _ (by omega)]

theorem blendPixelRGB_val (srcm : Mem) (sa : ℕ) (m : Mem) (da i : ℕ)
    (hi : i < 3)
    (hv : ∀ j < 3, readByte srcm (sa + j) ≤ readByte srcm (sa + 3)) :
    blendPixelRGB srcm sa m da (da + i) =
      rgbBlendVal srcm sa (readByte m (da + i)) i := by
  have hle : rgbBlendVal srcm sa (readByte m (da + i)) i ≤ 255 :=
    rgbBlendVal_le srcm sa _ i (Nat.le_of_lt_succ (readByte_lt m (da + i)))
      (hv i hi)
  unfold blendPixelRGB
  interval_cases i
  · rw [blendChanRGB_ne _ _ _ _ _ _ (by omega),
        blendChanRGB_ne _ _ _ _ _ _ (by omega),
        blendChanRGB_eq]
    rw [texel_byte3]
    have : texelAt srcm sa / 256 ^ 0 % 256 = readByte srcm (sa + 0) := by
      rw [pow_zero, Nat.div_one, texel_byte0, Nat.add_zero]
    rw [this]
    exact Nat.mod_eq_of_lt (by
      have := hle
      unfold rgbBlendVal at this
      omega)
  · rw [blendChanRGB_ne _ _ _ _ _ _ (by omega),
        blendChanRGB_eq,
        readByte_blendChanRGB_ne _ _ _ _ _ _ (by omega)]
    rw [texel_byte3]
    have : texelAt srcm sa / 256 ^ 1 % 256 = readByte srcm (sa + 1) := by
      rw [pow_one, texel_byte1]
    rw [this]
    exact Nat.mod_eq_of_lt (by
      have := hle
      unfold rgbBlendVal at this
      omega)
  · rw [blendChanRGB_eq,
        readByte_blendChanRGB_ne _ _ _ _ _ _ (by omega),
        readByte_blendChanRGB_ne _ _ _ _ _ _ (by omega)]
    rw [texel_byte3]
    have : texelAt srcm sa / 256 ^ 2 % 256 = readByte srcm (sa + 2) := by
      norm_num [texel_byte2]
    rw [this]
    exact Nat.mod_eq_of_lt (by
      have := hle
      unfold rgbBlendVal at this
      omega)

theorem blendRowRGB_frame (srcm : Mem) (n : ℕ) (m : Mem) (sa da a2 : ℕ)
    (h : a2 < da ∨ da + 3 * n ≤ a2) :
    blendRowRGB srcm n m sa da a2 = m a2 := by
  induction n generalizing m sa da with
  | zero => rfl
  | succ k ih =>
      show blendRowRGB srcm k (blendPixelRGB srcm sa m da) (sa + 4) (da + 3) a2 = m a2
      rw [ih _ _ _ (by omega)]
      exact blendPixelRGB_frame srcm sa m da a2 (by omega)

theorem blendRowRGB_val (srcm : Mem) (n : ℕ) (m : Mem) (sa da k i : ℕ)
    (hk : k < n) (hi : i < 3)
    (hv : ∀ t, ∀ j < 3,
      readByte srcm (sa + 4 * t + j) ≤ readByte srcm (sa + 4 * t + 3)) :
    blendRowRGB srcm n m sa da (da + 3 * k + i) =
      rgbBlendVal srcm (sa + 4 * k) (readByte m (da + 3 * k + i)) i := by
  induction n generalizing m sa da k with
  | zero => omega
  | succ t ih =>
      show blendRowRGB srcm t (blendPixelRGB srcm sa m da) (sa + 4) (da + 3)
          (da + 3 * k + i) = _
      match k with
      | 0 =>
          rw [blendRowRGB_frame srcm t _ _ _ _ (by omega)]
          have h0 : da + 3 * 0 + i = da + i := by ring
          have h1 : sa + 4 * 0 = sa := by ring
          rw [h0, h1]
          exact blendPixelRGB_val srcm sa m da i hi (by
            intro j hj
            have h6 := hv 0 j hj
            have h2 : sa + 4 * 0 + j = sa + j := by ring
            have h3 : sa + 4 * 0 + 3 = sa + 3 := by ring
            rw [h2, h3] at h6
            exact h6)
      | kk + 1 =>
          have h0 : da + 3 * (kk + 1) + i = (da + 3) + 3 * kk + i := by ring
          have h1 : sa + 4 * (kk + 1) = (sa + 4) + 4 * kk := by ring
          rw [h0, h1]
          rw [ih (blendPixelRGB srcm sa m da) (sa + 4) (da + 3) kk (by omega)
              (by
                intro tt j hj
                have h2 : sa + 4 + 4 * tt + j = sa + 4 * (tt + 1) + j := by ring
                have h3 : sa + 4 + 4 * tt + 3 = sa + 4 * (tt + 1) + 3 := by ring
                rw [h2, h3]
                exact hv (tt + 1) j hj)]
          have h4 : readByte (blendPixelRGB srcm sa m da) (da + 3 + 3 * kk + i) =
              readByte m (da + 3 * (kk + 1) + i) := by
            unfold readByte
            rw [blendPixelRGB_frame srcm sa m da _ (by omega)]
            have h5 : da + 3 + 3 * kk + i = da + 3 * (kk + 1) + i := by ring
            rw [h5]
          rw [h4, h0]

theorem blendRowsRGB_frame (srcm : Mem) (ss ds w h : ℕ) (m : Mem) (sa da a2 : ℕ)
    (hds : 3 * w ≤ ds)
    (hout : ∀ y < h, ∀ j < 3 * w, a2 ≠ da + y * ds + j) :
    blendRowsRGB srcm ss ds w h m sa da a2 = m a2 := by
  induction h generalizing m sa da with
  | zero => rfl
  | succ t ih =>
      show blendRowsRGB srcm ss ds w t (blendRowRGB srcm w m sa da)
          (sa + ss) (da + ds) a2 = m a2
      rw [ih _ _ _ (by
        intro y hy j hj
        have := hout (y + 1) (by omega) j hj
        have h0 : da + (y + 1) * ds + j = da + ds + y * ds + j := by ring
        rw [h0] at this
        exact this)]
      apply blendRowRGB_frame
      have h1 : ∀ j < 3 * w, a2 ≠ da + j := by
        intro j hj
        have := hout 0 (by omega) j hj
        have h0 : da + 0 * ds + j = da + j := by ring
        rw [h0] at this
        exact this
      by_contra hcon
      push_neg at hcon
      exact h1 (a2 - da) (by omega) (by omega)

theorem blendRowsRGB_val (srcm : Mem) (ss ds w h : ℕ) (m : Mem) (sa da : ℕ)
    (y x i : ℕ) (hds : 3 * w ≤ ds) (hy : y < h) (hx : x < w) (hi : i < 3)
    (hv : ∀ yy xx, ∀ j < 3, readByte srcm (sa + yy * ss + 4 * xx + j) ≤
      readByte srcm (sa + yy * ss + 4 * xx + 3)) :
    blendRowsRGB srcm ss ds w h m sa da (da + y * ds + 3 * x + i) =
      rgbBlendVal srcm (sa + y * ss + 4 * x)
        (readByte m (da + y * ds + 3 * x + i)) i := by
  induction h generalizing m sa da y with
  | zero => omega
  | succ t ih =>
      show blendRowsRGB srcm ss ds w t (blendRowRGB srcm w m sa da)
          (sa + ss) (da + ds) (da + y * ds + 3 * x + i) = _
      match y with
      | 0 =>
          have h0 : da + 0 * ds + 3 * x + i = da + 3 * x + i := by ring
          have h1 : sa + 0 * ss + 4 * x = sa + 4 * x := by ring
          rw [h0, h1]
          rw [blendRowsRGB_frame srcm ss ds w t _ _ _ _ hds (by
            intro yy hyy j hj
            omega)]
          exact blendRowRGB_val srcm w m sa da x i hx hi (by
            intro tt j hj
            have := hv 0 tt j hj
            have h2 : sa + 0 * ss + 4 * tt + j = sa + 4 * tt + j := by ring
            have h3 : sa + 0 * ss + 4 * tt + 3 = sa + 4 * tt + 3 := by ring
            rw [h2, h3] at this
            exact this)
      | yy + 1 =>
          have h0 : da + (yy + 1) * ds + 3 * x + i =
              (da + ds) + yy * ds + 3 * x + i := by ring
          have h1 : sa + (yy + 1) * ss + 4 * x = (sa + ss) + yy * ss + 4 * x := by
            ring
          rw [h0, h1]
          rw [ih (blendRowRGB srcm w m sa da) (sa + ss) (da + ds) yy (by omega)
              (by
                intro y2 x2 j hj
                have := hv (y2 + 1) x2 j hj
                have h2 : sa + (y2 + 1) * ss + 4 * x2 + j =
                    sa + ss + y2 * ss + 4 * x2 + j := by ring
                have h3 : sa + (y2 + 1) * ss + 4 * x2 + 3 =
                    sa + ss + y2 * ss + 4 * x2 + 3 := by ring
                rw [h2, h3] at this
                exact this)]
          have h4 : readByte (blendRowRGB srcm w m sa da)
              (da + ds + yy * ds + 3 * x + i) =
              readByte m (da + (yy + 1) * ds + 3 * x + i) := by
            unfold readByte
            rw [blendRowRGB_frame srcm w m sa da _ (by omega)]
            have h5 : da + ds + yy * ds + 3 * x + i =
                da + (yy + 1) * ds + 3 * x + i := by ring
            rw [h5]
          rw [h4, h0]

/-- C2: the packed-RGB compositor blends each premultiplied colour byte
    directly (no unpremultiplication): for every pixel `(x, y)` of the
    `w × h` rectangle and channel `i`, the new destination byte is
    `(d * (255 - alpha) + chan * 255) / 255` computed from the original
    destination byte `d`, the alpha byte of the texel and its
    premultiplied channel byte (each destination byte is blended exactly
    once, from its original value); every byte outside the rectangle
    rows — in particular the row stride padding — is untouched.
    Hypotheses: the destination stride covers a row (`3 * w ≤ ds`) and
    the raster is premultiplied (each colour byte ≤ its alpha byte),
    which is the encoding the overlay renderer guarantees. -/
theorem C2_blend_surface_rgb_spec (srcm : Mem) (ss : ℕ) (m : Mem)
    (ds w h : ℕ) (hds : 3 * w ≤ ds)
    (hval : ∀ y x, ∀ j < 3, readByte srcm (y * ss + 4 * x + j) ≤
      readByte srcm (y * ss + 4 * x + 3)) :
    (∀ y < h, ∀ x < w, ∀ i < 3,
      blend_surface_rgb srcm ss m ds w h (y * ds + 3 * x + i) =
        (readByte m (y * ds + 3 * x + i) *
            (255 - readByte srcm (y * ss + 4 * x + 3)) +
          readByte srcm (y * ss + 4 * x + i) * 255) / 255) ∧
    (∀ a2, (∀ y < h, ∀ j < 3 * w, a2 ≠ y * ds + j) →
      blend_surface_rgb srcm ss m ds w h a2 = m a2) := by
  constructor
  · intro y hy x hx i hi
    have e1 : y * ds + 3 * x + i = 0 + y * ds + 3 * x + i := by ring
    have e2 : y * ss + 4 * x = 0 + y * ss + 4 * x := by ring
    rw [e1, e2]
    unfold blend_surface_rgb
    rw [blendRowsRGB_val srcm ss ds w h m 0 0 y x i hds hy hx hi (by
      intro yy xx j hj
      have h6 := hval yy xx j hj
      have e3 : 0 + yy * ss + 4 * xx + j = yy * ss + 4 * xx + j := by ring
      have e4 : 0 + yy * ss + 4 * xx + 3 = yy * ss + 4 * xx + 3 := by ring
      rw [e3, e4]
      exact h6)]
    unfold rgbBlendVal
    rfl
  · intro a2 hout
    unfold blend_surface_rgb
    apply blendRowsRGB_frame srcm ss ds w h m 0 0 a2 hds
    intro y hy j hj
    have h6 := hout y hy j hj
    have e3 : 0 + y * ds + j = y * ds + j := by ring
    rw [e3]
    exact h6

/-- Witness for C2: a 1×1 frame, destination bytes all 100, raster bytes
    all 7 (premultiplied: 7 ≤ 7); the blended byte 0 is
    (100 * (255 - 7) + 7 * 255) / 255 = 104, and the padding byte at
    address 2000 is untouched. -/
theorem C2_blend_surface_rgb_spec_witness :
    blend_surface_rgb (fun _ => 7) 4 (fun _ => 100) 3 1 1 0 = 104 ∧
    blend_surface_rgb (fun _ => 7) 4 (fun _ => 100) 3 1 1 2000 = 100 := by
  have h := C2_blend_surface_rgb_spec (fun _ => 7) 4 (fun _ => 100) 3 1 1
    (by omega) (fun y x j hj => le_refl _)
  constructor
  · have h2 := h.1 0 (by omega) 0 (by omega) 0 (by omega)
    norm_num [readByte] at h2
    exact h2
  · have h2 := h.2 2000 (by intro y hy j hj; omega)
    exact h2

theorem texelAt_zero (srcm : Mem) (hs : ∀ a, srcm a = 0) (sa : ℕ) :
    texelAt srcm sa = 0 := by
  simp [texelAt, readByte, hs]

theorem blendChanRGB_id (srcm : Mem) (hs : ∀ a, srcm a = 0)
    (m : Mem) (hm : ∀ a, m a ≤ 255) (sa i da : ℕ) :
    blendChanRGB srcm sa i m da = m := by
  funext a2
  unfold blendChanRGB writeByte
  by_cases hc : a2 = da + i
  · rw [if_pos hc, texelAt_zero srcm hs]
    have h1 : (0 : ℕ) / 16777216 = 0 := by norm_num
    have h2 : (0 : ℕ) / 256 ^ i % 256 = 0 := by simp
    rw [h1, h2]
    have h3 : readByte m (da + i) = m (da + i) := by
      unfold readByte
      exact Nat.mod_eq_of_lt (by have := hm (da + i); omega)
    rw [h3, hc]
    have h4 := hm (da + i)
    have h5 : m (da + i) * (255 - 0) + 0 * 255 = m (da + i) * 255 := by ring
    rw [h5, Nat.mul_div_cancel _ (by norm_num)]
    exact Nat.mod_eq_of_lt (by omega)
  · rw [if_neg hc]

theorem blendPixelRGB_id (srcm : Mem) (hs : ∀ a, srcm a = 0)
    (m : Mem) (hm : ∀ a, m a ≤ 255) (sa da : ℕ) :
    blendPixelRGB srcm sa m da = m := by
  unfold blendPixelRGB
  rw [blendChanRGB_id srcm hs m hm sa 0 da,
      blendChanRGB_id srcm hs m hm sa 1 da,
      blendChanRGB_id srcm hs m hm sa 2 da]

theorem blendRowRGB_id (srcm : Mem) (hs : ∀ a, srcm a = 0) (n : ℕ)
    (m : Mem) (hm : ∀ a, m a ≤ 255) (sa da : ℕ) :
    blendRowRGB srcm n m sa da = m := by
  induction n generalizing m sa da with
  | zero => rfl
  | succ k ih =>
      show blendRowRGB srcm k (blendPixelRGB srcm sa m da) (sa + 4) (da + 3) = m
      rw [blendPixelRGB_id srcm hs m hm sa da]
      exact ih m hm (sa + 4) (da + 3)

theorem blendRowsRGB_id (srcm : Mem) (hs : ∀ a, srcm a = 0) (ss ds w h : ℕ)
    (m : Mem) (hm : ∀ a, m a ≤ 255) (sa da : ℕ) :
    blendRowsRGB srcm ss ds w h m sa da = m := by
  induction h generalizing m sa da with
  | zero => rfl
  | succ t ih =>
      show blendRowsRGB srcm ss ds w t (blendRowRGB srcm w m sa da)
        (sa + ss) (da + ds) = m
      rw [blendRowRGB_id srcm hs w m hm sa da]
      exact ih m hm (sa + ss) (da + ds)

/-- C3 counterexample: the texel 0x000000FF has alpha byte 0 but blue
    byte 255; the sampler leaves the blue channel at 255/255 = 1.0, not
    0.0 — the code skips the unpremultiply division for zero alpha but
    does not zero the channels. -/
theorem C3_counterexample :
    texelAlpha 255 = 0 ∧ (texel_unpremul 255).v2 = 1 := by
  constructor
  · rfl
  · norm_num [texel_unpremul, texelAlpha, texel_rgbd]

/-- C3 (amended): for a zero alpha byte the sampler returns the
    premultiplied normalized channels `byte/255` unchanged — which is
    exactly 0.0 whenever the texel honours the premultiplied encoding
    (all colour bytes 0, forced here by `p % 2^24 = 0`) — and for a
    nonzero alpha byte each channel is `byte/alpha`; the division is
    guarded by `a[i] != 0`, so no division by zero occurs. -/
theorem C3_texel_unpremul_cases (p : ℕ) :
    (texelAlpha p = 0 → texel_unpremul p = texel_rgbd p) ∧
    (texelAlpha p = 0 → p % 16777216 = 0 → texel_unpremul p = ⟨0, 0, 0⟩) ∧
    (texelAlpha p ≠ 0 →
      (texel_unpremul p).v0 = ((p / 65536 % 256 : ℕ) : ℚ) / (texelAlpha p : ℚ) ∧
      (texel_unpremul p).v1 = ((p / 256 % 256 : ℕ) : ℚ) / (texelAlpha p : ℚ) ∧
      (texel_unpremul p).v2 = ((p % 256 : ℕ) : ℚ) / (texelAlpha p : ℚ)) := by
  refine ⟨?_, ?_, ?_⟩
  · intro h
    unfold texel_unpremul
    rw [if_neg (by simp [h])]
  · intro h hlow
    have hp : p = 0 := by
      unfold texelAlpha at h
      omega
    subst hp
    norm_num [texel_unpremul, texelAlpha, texel_rgbd]
  · intro h
    unfold texel_unpremul
    rw [if_pos h]
    unfold texel_rgbd
    refine ⟨?_, ?_, ?_⟩ <;>
      · show _ / 255 * 255 / _ = _
        rw [div_mul_cancel₀ _ (by norm_num : (255 : ℚ) ≠ 0)]

/-- Witness for C3 (amended): the all-zero texel yields exactly (0,0,0);
    the texel 0x80000040 (alpha 128, blue byte 64) yields blue channel
    64/128. -/
theorem C3_texel_unpremul_cases_witness :
    texel_unpremul 0 = ⟨0, 0, 0⟩ ∧
    (texel_unpremul 2147483712).v2 =
      ((2147483712 % 256 : ℕ) : ℚ) / (texelAlpha 2147483712 : ℚ) := by
  constructor
  · exact (C3_texel_unpremul_cases 0).2.1 rfl rfl
  · exact ((C3_texel_unpremul_cases 2147483712).2.2 (by decide)).2.2

theorem init_rgb2yuv_ok (fmt : AVPixelFormat) (csp : AVColorSpace)
    (range : AVColorRange) (flt : FlootayParams)
    (h : init_rgb2yuv fmt csp range = Except.ok flt) :
    ∃ c, av_csp_luma_coeffs_from_avcsp
        (if csp = AVColorSpace.unspecified then AVColorSpace.smpte170m
         else csp) = some c ∧
      flt.rgb2yuv = ff_fill_rgb2yuv_table c ∧
      ((flt.y_multiply = 219/255 ∧ flt.y_add = 16/255 ∧
        flt.uv_multiply = 224/255 ∧ flt.uv_add = 128/255) ∨
       (flt.y_multiply = 1 ∧ flt.y_add = 0 ∧
        flt.uv_multiply = 1 ∧ flt.uv_add = 1/2)) := by
  unfold init_rgb2yuv av_pix_fmt_desc_get at h
  rcases hlk : av_csp_luma_coeffs_from_avcsp
      (if csp = AVColorSpace.unspecified then AVColorSpace.smpte170m
       else csp) with _ | c
  · simp only [hlk] at h
    exact absurd h (by simp)
  · simp only [hlk] at h
    refine ⟨c, rfl, ?_⟩
    by_cases hr : range = AVColorRange.mpeg
    · rw [if_pos hr] at h
      cases h
      exact ⟨rfl, Or.inl ⟨rfl, rfl, rfl, rfl⟩⟩
    · rw [if_neg hr] at h
      cases h
      exact ⟨rfl, Or.inr ⟨rfl, rfl, rfl, rfl⟩⟩

theorem luma_coeffs_props (csp : AVColorSpace) (c : AVLumaCoefficients)
    (h : av_csp_luma_coeffs_from_avcsp csp = some c) :
    0 < c.cr ∧ 0 < c.cg ∧ 0 < c.cb ∧ c.cr + c.cg + c.cb = 1 := by
  cases csp <;> simp [av_csp_luma_coeffs_from_avcsp] at h <;>
    (rw [← h]; norm_num)

theorem q_byte_div_alpha_mem (b α : ℕ) (hb : b ≤ α) (hα : 0 < α) :
    0 ≤ ((b : ℚ)/255) * 255 / (α : ℚ) ∧ ((b : ℚ)/255) * 255 / (α : ℚ) ≤ 1 := by
  rw [div_mul_cancel₀ _ (by norm_num : (255 : ℚ) ≠ 0)]
  have hα2 : (0 : ℚ) < (α : ℚ) := by exact_mod_cast hα
  constructor
  · positivity
  · rw [div_le_one hα2]
    exact_mod_cast hb

theorem texel_unpremul_mem (p : ℕ) (hv : validTexel p) :
    (0 ≤ (texel_unpremul p).v0 ∧ (texel_unpremul p).v0 ≤ 1) ∧
    (0 ≤ (texel_unpremul p).v1 ∧ (texel_unpremul p).v1 ≤ 1) ∧
    (0 ≤ (texel_unpremul p).v2 ∧ (texel_unpremul p).v2 ≤ 1) := by
  obtain ⟨hv0, hv1, hv2⟩ := hv
  by_cases ha : texelAlpha p = 0
  · rw [ha] at hv0 hv1 hv2
    have h0 : p / 65536 % 256 = 0 := by omega
    have h1 : p / 256 % 256 = 0 := by omega
    have h2 : p % 256 = 0 := by omega
    unfold texel_unpremul
    rw [if_neg (by simp [ha])]
    unfold texel_rgbd
    rw [h0, h1, h2]
    norm_num
  · have hpos : 0 < texelAlpha p := Nat.pos_of_ne_zero ha
    unfold texel_unpremul
    rw [if_pos ha]
    unfold texel_rgbd
    exact ⟨q_byte_div_alpha_mem _ _ hv0 hpos, q_byte_div_alpha_mem _ _ hv1 hpos,
      q_byte_div_alpha_mem _ _ hv2 hpos⟩

theorem matrix_mul_fill_eq (c : AVLumaCoefficients) (v : Vec3) :
    ff_matrix_mul_3x3_vec (ff_fill_rgb2yuv_table c) v =
      ⟨c.cr * v.v0 + c.cg * v.v1 + c.cb * v.v2,
       (1/2)/(c.cb - 1) * c.cr * v.v0 + (1/2)/(c.cb - 1) * c.cg * v.v1 +
         (1/2) * v.v2,
       (1/2) * v.v0 + (1/2)/(c.cr - 1) * c.cg * v.v1 +
         (1/2)/(c.cr - 1) * c.cb * v.v2⟩ := by
  simp [ff_fill_rgb2yuv_table, ff_matrix_mul_3x3_vec]

theorem luma_combo_mem (cr cg cb r g b : ℚ) (hcr : 0 < cr) (hcg : 0 < cg)
    (hcb : 0 < cb) (hsum : cr + cg + cb = 1)
    (hr0 : 0 ≤ r) (hr1 : r ≤ 1) (hg0 : 0 ≤ g) (hg1 : g ≤ 1)
    (hb0 : 0 ≤ b) (hb1 : b ≤ 1) :
    0 ≤ cr * r + cg * g + cb * b ∧ cr * r + cg * g + cb * b ≤ 1 := by
  constructor
  · positivity
  · nlinarith [mul_le_of_le_one_right hcr.le hr1,
      mul_le_of_le_one_right hcg.le hg1, mul_le_of_le_one_right hcb.le hb1]

theorem chroma_combo_mem (cr cg cb r g b : ℚ) (hcr : 0 < cr) (hcg : 0 < cg)
    (hcb : 0 < cb) (hsum : cr + cg + cb = 1)
    (hr0 : 0 ≤ r) (hr1 : r ≤ 1) (hg0 : 0 ≤ g) (hg1 : g ≤ 1)
    (hb0 : 0 ≤ b) (hb1 : b ≤ 1) :
    -(1/2) ≤ (1/2) / (cb - 1) * cr * r + (1/2) / (cb - 1) * cg * g +
        (1/2) * b ∧
      (1/2) / (cb - 1) * cr * r + (1/2) / (cb - 1) * cg * g + (1/2) * b
        ≤ 1/2 := by
  have hcb1 : cb < 1 := by linarith
  have hbs : (1/2) / (cb - 1) < 0 :=
    div_neg_of_pos_of_neg (by norm_num) (by linarith)
  have hkey : (1/2) / (cb - 1) * (cr + cg) = -(1/2) := by
    have hne : cb - 1 ≠ 0 := by intro h; linarith
    field_simp
    linarith
  have hxr : (1/2) / (cb - 1) * cr ≤ 0 :=
    mul_nonpos_of_nonpos_of_nonneg hbs.le hcr.le
  have hxg : (1/2) / (cb - 1) * cg ≤ 0 :=
    mul_nonpos_of_nonpos_of_nonneg hbs.le hcg.le
  constructor
  · have h1 : (1/2) / (cb - 1) * cr * 1 ≤ (1/2) / (cb - 1) * cr * r := by
      nlinarith
    have h2 : (1/2) / (cb - 1) * cg * 1 ≤ (1/2) / (cb - 1) * cg * g := by
      nlinarith
    nlinarith
  · have h1 : (1/2) / (cb - 1) * cr * r ≤ 0 :=
      mul_nonpos_of_nonpos_of_nonneg hxr hr0
    have h2 : (1/2) / (cb - 1) * cg * g ≤ 0 :=
      mul_nonpos_of_nonpos_of_nonneg hxg hg0
    nlinarith

theorem ctrunc_unit_range (x : ℚ) (h0 : 0 ≤ x) (h1 : x ≤ 1) :
    0 ≤ ctrunc (x * 255 + 1/2) ∧ ctrunc (x * 255 + 1/2) ≤ 255 := by
  unfold ctrunc
  rw [if_pos (by linarith)]
  constructor
  · exact Int.floor_nonneg.mpr (by linarith)
  · have hlt : ⌊x * 255 + 1/2⌋ < 256 := by
      rw [Int.floor_lt]
      push_cast
      linarith
    omega

theorem texel_scaled_mem (flt : FlootayParams) (c : AVLumaCoefficients)
    (hmat : flt.rgb2yuv = ff_fill_rgb2yuv_table c)
    (hcr : 0 < c.cr) (hcg : 0 < c.cg) (hcb : 0 < c.cb)
    (hsum : c.cr + c.cg + c.cb = 1)
    (hconst : (flt.y_multiply = 219/255 ∧ flt.y_add = 16/255 ∧
        flt.uv_multiply = 224/255 ∧ flt.uv_add = 128/255) ∨
      (flt.y_multiply = 1 ∧ flt.y_add = 0 ∧ flt.uv_multiply = 1 ∧
        flt.uv_add = 1/2))
    (p : ℕ) (hv : validTexel p) :
    (0 ≤ texel_yq flt p ∧ texel_yq flt p ≤ 1) ∧
    (0 ≤ texel_uq flt p ∧ texel_uq flt p ≤ 1) ∧
    (0 ≤ texel_vq flt p ∧ texel_vq flt p ≤ 1) := by
  obtain ⟨⟨hr0, hr1⟩, ⟨hg0, hg1⟩, ⟨hb0, hb1⟩⟩ := texel_unpremul_mem p hv
  have hY := luma_combo_mem c.cr c.cg c.cb (texel_unpremul p).v0
    (texel_unpremul p).v1 (texel_unpremul p).v2 hcr hcg hcb hsum
    hr0 hr1 hg0 hg1 hb0 hb1
  have hU := chroma_combo_mem c.cr c.cg c.cb (texel_unpremul p).v0
    (texel_unpremul p).v1 (texel_unpremul p).v2 hcr hcg hcb hsum
    hr0 hr1 hg0 hg1 hb0 hb1
  have hV := chroma_combo_mem c.cg c.cb c.cr (texel_unpremul p).v1
    (texel_unpremul p).v2 (texel_unpremul p).v0 hcg hcb hcr
    (by linarith) hg0 hg1 hb0 hb1 hr0 hr1
  unfold texel_yq texel_uq texel_vq texel_yuvd
  rw [hmat, matrix_mul_fill_eq]
  simp only
  rcases hconst with ⟨h1, h2, h3, h4⟩ | ⟨h1, h2, h3, h4⟩ <;>
    rw [h1, h2, h3, h4] <;>
    exact ⟨⟨by linarith [hY.1], by linarith [hY.2]⟩,
      ⟨by linarith [hU.1], by linarith [hU.2]⟩,
      ⟨by linarith [hV.1], by linarith [hV.2]⟩⟩

theorem texel_ints_range (fmt : AVPixelFormat) (csp : AVColorSpace)
    (range : AVColorRange) (flt : FlootayParams)
    (hinit : init_rgb2yuv fmt csp range = Except.ok flt)
    (p : ℕ) (hv : validTexel p) :
    (0 ≤ texel_yInt flt p ∧ texel_yInt flt p ≤ 255) ∧
    (0 ≤ texel_uInt flt p ∧ texel_uInt flt p ≤ 255) ∧
    (0 ≤ texel_vInt flt p ∧ texel_vInt flt p ≤ 255) := by
  obtain ⟨c, hlk, hmat, hconst⟩ := init_rgb2yuv_ok fmt csp range flt hinit
  obtain ⟨hcr, hcg, hcb, hsum⟩ := luma_coeffs_props _ c hlk
  obtain ⟨⟨hy0, hy1⟩, ⟨hu0, hu1⟩, ⟨hw0, hw1⟩⟩ :=
    texel_scaled_mem flt c hmat hcr hcg hcb hsum hconst p hv
  exact ⟨ctrunc_unit_range _ hy0 hy1, ctrunc_unit_range _ hu0 hu1,
    ctrunc_unit_range _ hw0 hw1⟩

/-- C4 counterexample: the claim extends the [0,255] range guarantee to
    texels whose premultiplied colour bytes exceed their alpha byte, but
    `rgb_to_yuv` contains no clamp.  For the texel 0x01FF0000 (alpha 1,
    red byte 255) with the full-range SMPTE 170M parameters actually
    derived by `init_rgb2yuv`, the scaled luma integer is
    ⌊0.299·255·255 + 0.5⌋ = 19442, far outside [0,255] (the subsequent
    C conversion of that out-of-range `double` to `uint8_t` is
    undefined behaviour). -/
theorem C4_counterexample :
    init_rgb2yuv AVPixelFormat.yuv420p AVColorSpace.smpte170m
      AVColorRange.jpeg = Except.ok sdFullParams ∧
    ¬ validTexel 33488896 ∧
    255 < texel_yInt sdFullParams 33488896 := by
  refine ⟨rfl, ?_, ?_⟩
  · intro hcon
    have h1 := hcon.1
    norm_num [texelAlpha] at h1
  · unfold texel_yInt
    have hq : texel_yq sdFullParams 33488896 = 76245/1000 := by
      norm_num [texel_yq, texel_yuvd, texel_unpremul, texel_rgbd, texelAlpha,
        ff_matrix_mul_3x3_vec, ff_fill_rgb2yuv_table, sdFullParams]
    rw [hq]
    unfold ctrunc
    rw [if_pos (by norm_num)]
    have hfl : (256 : ℤ) ≤ ⌊(76245/1000 : ℚ) * 255 + 1/2⌋ := by
      rw [Int.le_floor]
      norm_num
    omega

/-- C4 (amended): `rgb_to_yuv` performs no clamping, and for texels that
    violate the premultiplied encoding its scaled values can leave
    [0,255]; but for every 2×2 block whose texels honour the
    premultiplied encoding (colour byte ≤ alpha byte, the invariant the
    overlay raster guarantees), every per-texel scaled luma and chroma
    integer and both averaged chroma integers already lie in [0,255]
    without any clamp, for every parameter set `init_rgb2yuv` can
    derive. -/
theorem C4_rgb_to_yuv_range (fmt : AVPixelFormat) (csp : AVColorSpace)
    (range : AVColorRange) (flt : FlootayParams)
    (hinit : init_rgb2yuv fmt csp range = Except.ok flt)
    (srcm : Mem) (sa ss : ℕ)
    (hv0 : validTexel (texelAt srcm sa))
    (hv1 : validTexel (texelAt srcm (sa + 4)))
    (hv2 : validTexel (texelAt srcm (sa + ss)))
    (hv3 : validTexel (texelAt srcm (sa + ss + 4))) :
    (∀ p ∈ [texelAt srcm sa, texelAt srcm (sa + 4), texelAt srcm (sa + ss),
        texelAt srcm (sa + ss + 4)],
      (0 ≤ texel_yInt flt p ∧ texel_yInt flt p ≤ 255) ∧
      (0 ≤ texel_uInt flt p ∧ texel_uInt flt p ≤ 255) ∧
      (0 ≤ texel_vInt flt p ∧ texel_vInt flt p ≤ 255)) ∧
    (0 ≤ Int.tdiv (texel_uInt flt (texelAt srcm sa) +
        texel_uInt flt (texelAt srcm (sa + 4)) +
        texel_uInt flt (texelAt srcm (sa + ss)) +
        texel_uInt flt (texelAt srcm (sa + ss + 4))) 4 ∧
      Int.tdiv (texel_uInt flt (texelAt srcm sa) +
        texel_uInt flt (texelAt srcm (sa + 4)) +
        texel_uInt flt (texelAt srcm (sa + ss)) +
        texel_uInt flt (texelAt srcm (sa + ss + 4))) 4 ≤ 255) ∧
    (0 ≤ Int.tdiv (texel_vInt flt (texelAt srcm sa) +
        texel_vInt flt (texelAt srcm (sa + 4)) +
        texel_vInt flt (texelAt srcm (sa + ss)) +
        texel_vInt flt (texelAt srcm (sa + ss + 4))) 4 ∧
      Int.tdiv (texel_vInt flt (texelAt srcm sa) +
        texel_vInt flt (texelAt srcm (sa + 4)) +
        texel_vInt flt (texelAt srcm (sa + ss)) +
        texel_vInt flt (texelAt srcm (sa + ss + 4))) 4 ≤ 255) := by
  have h0 := texel_ints_range fmt csp range flt hinit _ hv0
  have h1 := texel_ints_range fmt csp range flt hinit _ hv1
  have h2 := texel_ints_range fmt csp range flt hinit _ hv2
  have h3 := texel_ints_range fmt csp range flt hinit _ hv3
  refine ⟨?_, ?_, ?_⟩
  · intro p hp
    simp only [List.mem_cons, List.mem_singleton, List.not_mem_nil,
      or_false] at hp
    rcases hp with h | h | h | h <;> subst h
    · exact h0
    · exact h1
    · exact h2
    · exact h3
  · have hu0 := h0.2.1
    have hu1 := h1.2.1
    have hu2 := h2.2.1
    have hu3 := h3.2.1
    rw [Int.tdiv_eq_ediv (by omega) (by norm_num)]
    omega
  · have hw0 := h0.2.2
    have hw1 := h1.2.2
    have hw2 := h2.2.2
    have hw3 := h3.2.2
    rw [Int.tdiv_eq_ediv (by omega) (by norm_num)]
    omega

/-- Witness for C4 (amended): the raster whose bytes are all 7 (alpha 7,
    colour bytes 7 — a valid premultiplied texel) under the limited-range
    SMPTE 170M parameters. -/
theorem C4_rgb_to_yuv_range_witness :
    (0 ≤ texel_yInt sdLimitedParams (texelAt (fun _ => 7) 0) ∧
      texel_yInt sdLimitedParams (texelAt (fun _ => 7) 0) ≤ 255) ∧
    (0 ≤ Int.tdiv (texel_uInt sdLimitedParams (texelAt (fun _ => 7) 0) +
        texel_uInt sdLimitedParams (texelAt (fun _ => 7) (0 + 4)) +
        texel_uInt sdLimitedParams (texelAt (fun _ => 7) (0 + 4)) +
        texel_uInt sdLimitedParams (texelAt (fun _ => 7) (0 + 4 + 4))) 4 ∧
      Int.tdiv (texel_uInt sdLimitedParams (texelAt (fun _ => 7) 0) +
        texel_uInt sdLimitedParams (texelAt (fun _ => 7) (0 + 4)) +
        texel_uInt sdLimitedParams (texelAt (fun _ => 7) (0 + 4)) +
        texel_uInt sdLimitedParams (texelAt (fun _ => 7) (0 + 4 + 4))) 4 ≤ 255) := by
  have h := C4_rgb_to_yuv_range AVPixelFormat.yuv420p AVColorSpace.smpte170m
    AVColorRange.mpeg sdLimitedParams rfl (fun _ => 7) 0 4
    (by unfold validTexel; decide) (by unfold validTexel; decide)
    (by unfold validTexel; decide) (by unfold validTexel; decide)
  exact ⟨(h.1 _ (List.mem_cons_self _ _)).1, h.2.1⟩

theorem intToByte_eq_toNat (z : ℤ) (h0 : 0 ≤ z) (h1 : z ≤ 255) :
    intToByte z = z.toNat := by
  unfold intToByte
  rw [Int.emod_eq_of_lt h0 (by omega)]

/-- C5: the block reducer emits the four luma bytes in row-major texel
    order, each the stored value of that texel truncated via
    `yuvd[0]*255 + 0.5`; each chroma output is the four per-texel
    truncated chroma integers summed and divided by 4 — equal to the
    floor of the mean, since the per-texel values are nonnegative for
    premultiplied texels — and when the four texels are identical the
    chroma outputs equal the single-texel conversion.  Hypotheses: the
    parameters come from `init_rgb2yuv` and the four texels honour the
    premultiplied encoding. -/
theorem C5_rgb_to_yuv_chroma_average (fmt : AVPixelFormat)
    (csp : AVColorSpace) (range : AVColorRange) (flt : FlootayParams)
    (hinit : init_rgb2yuv fmt csp range = Except.ok flt)
    (srcm : Mem) (sa ss : ℕ)
    (hv0 : validTexel (texelAt srcm sa))
    (hv1 : validTexel (texelAt srcm (sa + 4)))
    (hv2 : validTexel (texelAt srcm (sa + ss)))
    (hv3 : validTexel (texelAt srcm (sa + ss + 4))) :
    ((rgb_to_yuv flt srcm sa ss).y0 =
        (texel_yInt flt (texelAt srcm sa)).toNat ∧
      (rgb_to_yuv flt srcm sa ss).y1 =
        (texel_yInt flt (texelAt srcm (sa + 4))).toNat ∧
      (rgb_to_yuv flt srcm sa ss).y2 =
        (texel_yInt flt (texelAt srcm (sa + ss))).toNat ∧
      (rgb_to_yuv flt srcm sa ss).y3 =
        (texel_yInt flt (texelAt srcm (sa + ss + 4))).toNat) ∧
    (((rgb_to_yuv flt srcm sa ss).u : ℤ) =
        Int.fdiv (texel_uInt flt (texelAt srcm sa) +
          texel_uInt flt (texelAt srcm (sa + 4)) +
          texel_uInt flt (texelAt srcm (sa + ss)) +
          texel_uInt flt (texelAt srcm (sa + ss + 4))) 4 ∧
      ((rgb_to_yuv flt srcm sa ss).v : ℤ) =
        Int.fdiv (texel_vInt flt (texelAt srcm sa) +
          texel_vInt flt (texelAt srcm (sa + 4)) +
          texel_vInt flt (texelAt srcm (sa + ss)) +
          texel_vInt flt (texelAt srcm (sa + ss + 4))) 4) ∧
    (texelAt srcm (sa + 4) = texelAt srcm sa →
      texelAt srcm (sa + ss) = texelAt srcm sa →
      texelAt srcm (sa + ss + 4) = texelAt srcm sa →
      (rgb_to_yuv flt srcm sa ss).u =
        (texel_uInt flt (texelAt srcm sa)).toNat ∧
      (rgb_to_yuv flt srcm sa ss).v =
        (texel_vInt flt (texelAt srcm sa)).toNat) := by
  have h0 := texel_ints_range fmt csp range flt hinit _ hv0
  have h1 := texel_ints_range fmt csp range flt hinit _ hv1
  have h2 := texel_ints_range fmt csp range flt hinit _ hv2
  have h3 := texel_ints_range fmt csp range flt hinit _ hv3
  refine ⟨⟨?_, ?_, ?_, ?_⟩, ⟨?_, ?_⟩, ?_⟩
  · show intToByte (texel_yInt flt (texelAt srcm sa)) = _
    exact intToByte_eq_toNat _ h0.1.1 h0.1.2
  · show intToByte (texel_yInt flt (texelAt srcm (sa + 4))) = _
    exact intToByte_eq_toNat _ h1.1.1 h1.1.2
  · show intToByte (texel_yInt flt (texelAt srcm (sa + ss))) = _
    exact intToByte_eq_toNat _ h2.1.1 h2.1.2
  · show intToByte (texel_yInt flt (texelAt srcm (sa + ss + 4))) = _
    exact intToByte_eq_toNat _ h3.1.1 h3.1.2
  · show ((intToByte (Int.tdiv (texel_uInt flt (texelAt srcm sa) +
      texel_uInt flt (texelAt srcm (sa + 4)) +
      texel_uInt flt (texelAt srcm (sa + ss)) +
      texel_uInt flt (texelAt srcm (sa + ss + 4))) 4) : ℕ) : ℤ) = _
    have hu0 := h0.2.1
    have hu1 := h1.2.1
    have hu2 := h2.2.1
    have hu3 := h3.2.1
    rw [Int.tdiv_eq_ediv (by omega) (by norm_num),
      Int.fdiv_eq_ediv _ (by norm_num)]
    unfold intToByte
    omega
  · show ((intToByte (Int.tdiv (texel_vInt flt (texelAt srcm sa) +
      texel_vInt flt (texelAt srcm (sa + 4)) +
      texel_vInt flt (texelAt srcm (sa + ss)) +
      texel_vInt flt (texelAt srcm (sa + ss + 4))) 4) : ℕ) : ℤ) = _
    have hw0 := h0.2.2
    have hw1 := h1.2.2
    have hw2 := h2.2.2
    have hw3 := h3.2.2
    rw [Int.tdiv_eq_ediv (by omega) (by norm_num),
      Int.fdiv_eq_ediv _ (by norm_num)]
    unfold intToByte
    omega
  · intro he1 he2 he3
    constructor
    · show intToByte (Int.tdiv (texel_uInt flt (texelAt srcm sa) +
        texel_uInt flt (texelAt srcm (sa + 4)) +
        texel_uInt flt (texelAt srcm (sa + ss)) +
        texel_uInt flt (texelAt srcm (sa + ss + 4))) 4) = _
      rw [he1, he2, he3]
      have hsum : texel_uInt flt (texelAt srcm sa) +
          texel_uInt flt (texelAt srcm sa) +
          texel_uInt flt (texelAt srcm sa) +
          texel_uInt flt (texelAt srcm sa) =
          4 * texel_uInt flt (texelAt srcm sa) := by ring
      rw [hsum, Int.mul_tdiv_cancel_left _ (by norm_num)]
      exact intToByte_eq_toNat _ h0.2.1.1 h0.2.1.2
    · show intToByte (Int.tdiv (texel_vInt flt (texelAt srcm sa) +
        texel_vInt flt (texelAt srcm (sa + 4)) +
        texel_vInt flt (texelAt srcm (sa + ss)) +
        texel_vInt flt (texelAt srcm (sa + ss + 4))) 4) = _
      rw [he1, he2, he3]
      have hsum : texel_vInt flt (texelAt srcm sa) +
          texel_vInt flt (texelAt srcm sa) +
          texel_vInt flt (texelAt srcm sa) +
          texel_vInt flt (texelAt srcm sa) =
          4 * texel_vInt flt (texelAt srcm sa) := by ring
      rw [hsum, Int.mul_tdiv_cancel_left _ (by norm_num)]
      exact intToByte_eq_toNat _ h0.2.2.1 h0.2.2.2

/-- Witness for C5: an all-7 raster (all four texels identical). -/
theorem C5_rgb_to_yuv_chroma_average_witness :
    (rgb_to_yuv sdLimitedParams (fun _ => 7) 0 4).y0 =
      (texel_yInt sdLimitedParams (texelAt (fun _ => 7) 0)).toNat ∧
    (rgb_to_yuv sdLimitedParams (fun _ => 7) 0 4).u =
      (texel_uInt sdLimitedParams (texelAt (fun _ => 7) 0)).toNat := by
  have h := C5_rgb_to_yuv_chroma_average AVPixelFormat.yuv420p
    AVColorSpace.smpte170m AVColorRange.mpeg sdLimitedParams rfl
    (fun _ => 7) 0 4
    (by unfold validTexel; decide) (by unfold validTexel; decide)
    (by unfold validTexel; decide) (by unfold validTexel; decide)
  exact ⟨h.1.1, (h.2.2 rfl rfl rfl).1⟩

theorem blend_component_zero_alpha (d s : ℕ) : blend_component d s 0 = d := by
  unfold blend_component
  simp

theorem writeByte_self (m : Mem) (hm : ∀ a, m a ≤ 255) (addr : ℕ) :
    writeByte m addr (readByte m addr) = m := by
  funext a2
  unfold writeByte readByte
  by_cases hc : a2 = addr
  · rw [if_pos hc, hc]
    have := hm addr
    omega
  · rw [if_neg hc]

theorem rgb_to_yuv_alpha_zero (flt : FlootayParams) (srcm : Mem)
    (hs : ∀ a, srcm a = 0) (sa ss : ℕ) :
    (rgb_to_yuv flt srcm sa ss).a0 = 0 ∧ (rgb_to_yuv flt srcm sa ss).a1 = 0 ∧
    (rgb_to_yuv flt srcm sa ss).a2 = 0 ∧ (rgb_to_yuv flt srcm sa ss).a3 = 0 := by
  unfold rgb_to_yuv
  simp [texelAlpha, texelAt_zero srcm hs]

theorem blend_y_id (m : Mem) (hm : ∀ a, m a ≤ 255) (da ds : ℕ)
    (b : YuvBlock) (h0 : b.a0 = 0) (h1 : b.a1 = 0) (h2 : b.a2 = 0)
    (h3 : b.a3 = 0) : blend_y m da ds b = m := by
  unfold blend_y
  simp only [h0, h1, h2, h3, blend_component_zero_alpha]
  rw [writeByte_self m hm da, writeByte_self m hm (da + 1),
    writeByte_self m hm (da + ds), writeByte_self m hm (da + ds + 1)]

theorem blendBlockYUV_id (flt : FlootayParams) (srcm : Mem)
    (hs : ∀ a, srcm a = 0) (ss : ℕ) (my mu mv : Mem)
    (hmy : ∀ a, my a ≤ 255) (hmu : ∀ a, mu a ≤ 255) (hmv : ∀ a, mv a ≤ 255)
    (ys sa dya dua dva : ℕ) :
    blendBlockYUV flt srcm ss my mu mv ys sa dya dua dva = (my, mu, mv) := by
  obtain ⟨ha0, ha1, ha2, ha3⟩ := rgb_to_yuv_alpha_zero flt srcm hs sa ss
  unfold blendBlockYUV
  simp only [ha0, ha1, ha2, ha3, Nat.add_zero, Nat.zero_div,
    blend_component_zero_alpha]
  rw [blend_y_id my hmy dya ys _ ha0 ha1 ha2 ha3,
    writeByte_self mu hmu dua, writeByte_self mv hmv dva]

theorem blendRowYUV_id (flt : FlootayParams) (srcm : Mem)
    (hs : ∀ a, srcm a = 0) (ss ys n : ℕ) (my mu mv : Mem)
    (hmy : ∀ a, my a ≤ 255) (hmu : ∀ a, mu a ≤ 255) (hmv : ∀ a, mv a ≤ 255)
    (sa dya dua dva : ℕ) :
    blendRowYUV flt srcm ss ys n my mu mv sa dya dua dva = (my, mu, mv) := by
  induction n generalizing my mu mv hmy hmu hmv sa dya dua dva with
  | zero => rfl
  | succ k ih =>
      show blendRowYUV flt srcm ss ys k
        (blendBlockYUV flt srcm ss my mu mv ys sa dya dua dva).1
        (blendBlockYUV flt srcm ss my mu mv ys sa dya dua dva).2.1
        (blendBlockYUV flt srcm ss my mu mv ys sa dya dua dva).2.2
        (sa + 8) (dya + 2) (dua + 1) (dva + 1) = (my, mu, mv)
      rw [blendBlockYUV_id flt srcm hs ss my mu mv hmy hmu hmv ys sa dya dua dva]
      exact ih my mu mv hmy hmu hmv (sa + 8) (dya + 2) (dua + 1) (dva + 1)

theorem blendRowsYUV_id (flt : FlootayParams) (srcm : Mem)
    (hs : ∀ a, srcm a = 0) (ss ys us vs w n : ℕ) (my mu mv : Mem)
    (hmy : ∀ a, my a ≤ 255) (hmu : ∀ a, mu a ≤ 255) (hmv : ∀ a, mv a ≤ 255)
    (sa dya dua dva : ℕ) :
    blendRowsYUV flt srcm ss ys us vs w n my mu mv sa dya dua dva =
      (my, mu, mv) := by
  induction n generalizing my mu mv hmy hmu hmv sa dya dua dva with
  | zero => rfl
  | succ k ih =>
      show blendRowsYUV flt srcm ss ys us vs w k
        (blendRowYUV flt srcm ss ys ((w + 1) / 2) my mu mv sa dya dua dva).1
        (blendRowYUV flt srcm ss ys ((w + 1) / 2) my mu mv sa dya dua dva).2.1
        (blendRowYUV flt srcm ss ys ((w + 1) / 2) my mu mv sa dya dua dva).2.2
        (sa + 2 * ss) (dya + 2 * ys) (dua + us) (dva + vs) = (my, mu, mv)
      rw [blendRowYUV_id flt srcm hs ss ys ((w + 1) / 2) my mu mv hmy hmu hmv
        sa dya dua dva]
      exact ih my mu mv hmy hmu hmv (sa + 2 * ss) (dya + 2 * ys)
        (dua + us) (dva + vs)

/-- C6: compositing an overlay raster whose bytes are all zero (every
    texel fully transparent, which in the premultiplied encoding forces
    all four bytes of every texel to zero) leaves every destination byte
    unchanged, through both the packed-RGB compositor and the planar-YUV
    compositor (whenever the latter gets past colorspace resolution —
    and when it does not, it returns before touching the destination). -/
theorem C6_zero_overlay_identity (srcm : Mem) (hs : ∀ a, srcm a = 0)
    (ss : ℕ) (m : Mem) (hm : ∀ a, m a ≤ 255) (ds w h : ℕ)
    (fmt : AVPixelFormat) (csp : AVColorSpace) (range : AVColorRange)
    (my : Mem) (hmy : ∀ a, my a ≤ 255) (mu : Mem) (hmu : ∀ a, mu a ≤ 255)
    (mv : Mem) (hmv : ∀ a, mv a ≤ 255) (ys us vs w2 h2 : ℕ)
    (r : Mem × Mem × Mem)
    (hok : blend_surface_yuv fmt csp range srcm ss my ys mu us mv vs w2 h2 =
      Except.ok r) :
    blend_surface_rgb srcm ss m ds w h = m ∧ r = (my, mu, mv) := by
  constructor
  · unfold blend_surface_rgb
    exact blendRowsRGB_id srcm hs ss ds w h m hm 0 0
  · unfold blend_surface_yuv at hok
    rcases hini : init_rgb2yuv fmt csp range with e | flt
    · rw [hini] at hok
      exact absurd hok (by simp)
    · rw [hini] at hok
      simp only [Except.ok.injEq] at hok
      rw [blendRowsYUV_id flt srcm hs ss ys us vs w2 ((h2 + 1) / 2)
        my mu mv hmy hmu hmv 0 0 0 0] at hok
      exact hok.symm

/-- Witness for C6: all-zero 1×1 raster over an all-100 packed frame and
    a planar frame with 100/128/128 planes. -/
theorem C6_zero_overlay_identity_witness :
    blend_surface_rgb (fun _ => 0) 4 (fun _ => 100) 3 1 1 = (fun _ => 100) ∧
    (((fun _ => 100), (fun _ => 128), (fun _ => 128)) : Mem × Mem × Mem) =
      ((fun _ => 100), (fun _ => 128), (fun _ => 128)) :=
  C6_zero_overlay_identity (fun _ => 0) (fun _ => rfl) 4
    (fun _ => 100) (fun _ => by norm_num) 3 1 1
    AVPixelFormat.yuv420p AVColorSpace.smpte170m AVColorRange.mpeg
    (fun _ => 100) (fun _ => by norm_num) (fun _ => 128)
    (fun _ => by norm_num) (fun _ => 128) (fun _ => by norm_num)
    2 1 1 2 0 ((fun _ => 100), (fun _ => 128), (fun _ => 128)) rfl

/-- C7: the deriver defaults an unspecified colour-space tag to
    SMPTE 170M (BT.601 coefficients), fails with `AVERROR(EINVAL)`
    exactly when the (defaulted) tag has no known luma coefficients, and
    on success fills the table from the looked-up coefficients and sets
    the range constants: 219/255, 16/255, 224/255, 128/255 for limited
    (MPEG) range and 1, 0, 1, 1/2 for full range. -/
theorem C7_init_rgb2yuv_contract (fmt : AVPixelFormat) (csp : AVColorSpace)
    (range : AVColorRange) :
    (init_rgb2yuv fmt AVColorSpace.unspecified range =
      init_rgb2yuv fmt AVColorSpace.smpte170m range) ∧
    (init_rgb2yuv fmt csp range = Except.error AVERROR_EINVAL ↔
      av_csp_luma_coeffs_from_avcsp
        (if csp = AVColorSpace.unspecified then AVColorSpace.smpte170m
         else csp) = none) ∧
    (∀ flt, init_rgb2yuv fmt csp range = Except.ok flt →
      (∀ c, av_csp_luma_coeffs_from_avcsp
          (if csp = AVColorSpace.unspecified then AVColorSpace.smpte170m
           else csp) = some c → flt.rgb2yuv = ff_fill_rgb2yuv_table c) ∧
      (range = AVColorRange.mpeg →
        flt.y_multiply = 219/255 ∧ flt.y_add = 16/255 ∧
        flt.uv_multiply = 224/255 ∧ flt.uv_add = 128/255) ∧
      (range ≠ AVColorRange.mpeg →
        flt.y_multiply = 1 ∧ flt.y_add = 0 ∧
        flt.uv_multiply = 1 ∧ flt.uv_add = 1/2)) := by
  refine ⟨rfl, ?_, ?_⟩
  · rcases hlk : av_csp_luma_coeffs_from_avcsp
        (if csp = AVColorSpace.unspecified then AVColorSpace.smpte170m
         else csp) with _ | c
    · constructor
      · intro _
        rfl
      · intro _
        unfold init_rgb2yuv av_pix_fmt_desc_get
        simp only [hlk]
    · constructor
      · intro he
        unfold init_rgb2yuv av_pix_fmt_desc_get at he
        simp only [hlk] at he
        split_ifs at he <;> simp at he
      · intro hn
        exact absurd hn (by simp)
  · intro flt h
    unfold init_rgb2yuv av_pix_fmt_desc_get at h
    rcases hlk : av_csp_luma_coeffs_from_avcsp
        (if csp = AVColorSpace.unspecified then AVColorSpace.smpte170m
         else csp) with _ | c
    · simp only [hlk] at h
      exact absurd h (by simp)
    · simp only [hlk] at h
      by_cases hr : range = AVColorRange.mpeg
      · rw [if_pos hr] at h
        cases h
        refine ⟨?_, ?_, ?_⟩
        · intro c2 hc2
          injection hc2 with hceq
          subst hceq
          rfl
        · intro _
          exact ⟨rfl, rfl, rfl, rfl⟩
        · intro hne
          exact absurd hr hne
      · rw [if_neg hr] at h
        cases h
        refine ⟨?_, ?_, ?_⟩
        · intro c2 hc2
          injection hc2 with hceq
          subst hceq
          rfl
        · intro he
          exact absurd he hr
        · intro _
          exact ⟨rfl, rfl, rfl, rfl⟩

/-- Witness for C7: the unspecified tag behaves as SMPTE 170M; the
    reserved tag fails with EINVAL; limited range yields the 219/255
    luma scale. -/
theorem C7_init_rgb2yuv_contract_witness :
    init_rgb2yuv AVPixelFormat.yuv420p AVColorSpace.unspecified
        AVColorRange.mpeg =
      init_rgb2yuv AVPixelFormat.yuv420p AVColorSpace.smpte170m
        AVColorRange.mpeg ∧
    init_rgb2yuv AVPixelFormat.yuv420p AVColorSpace.reserved
        AVColorRange.mpeg = Except.error AVERROR_EINVAL ∧
    sdLimitedParams.y_multiply = 219/255 := by
  refine ⟨(C7_init_rgb2yuv_contract AVPixelFormat.yuv420p
    AVColorSpace.unspecified AVColorRange.mpeg).1, ?_, ?_⟩
  · exact (C7_init_rgb2yuv_contract AVPixelFormat.yuv420p
      AVColorSpace.reserved AVColorRange.mpeg).2.1.mpr rfl
  · exact (((C7_init_rgb2yuv_contract AVPixelFormat.yuv420p
      AVColorSpace.smpte170m AVColorRange.mpeg).2.2 sdLimitedParams
      rfl).2.1 rfl).1

/-- C10: the limited-range constants are selected only when the range
    tag is exactly MPEG; every other tag — including the unspecified
    one — gets the full-range constants 1, 0, 1, 1/2. -/
theorem C10_full_range_unless_mpeg (fmt : AVPixelFormat)
    (csp : AVColorSpace) (c : AVLumaCoefficients)
    (hc : av_csp_luma_coeffs_from_avcsp
      (if csp = AVColorSpace.unspecified then AVColorSpace.smpte170m
       else csp) = some c) :
    init_rgb2yuv fmt csp AVColorRange.mpeg = Except.ok (limitedParamsOf c) ∧
    (∀ range, range ≠ AVColorRange.mpeg →
      init_rgb2yuv fmt csp range = Except.ok (fullParamsOf c)) := by
  constructor
  · unfold init_rgb2yuv av_pix_fmt_desc_get
    simp only [hc]
    rfl
  · intro range hr
    unfold init_rgb2yuv av_pix_fmt_desc_get
    simp only [hc]
    rw [if_neg hr]
    rfl

/-- Witness for C10: SMPTE 170M with the MPEG, JPEG and unspecified
    range tags. -/
theorem C10_full_range_unless_mpeg_witness :
    init_rgb2yuv AVPixelFormat.yuv420p AVColorSpace.smpte170m
        AVColorRange.mpeg = Except.ok sdLimitedParams ∧
    init_rgb2yuv AVPixelFormat.yuvj420p AVColorSpace.smpte170m
        AVColorRange.jpeg = Except.ok sdFullParams ∧
    init_rgb2yuv AVPixelFormat.yuv420p AVColorSpace.smpte170m
        AVColorRange.unspecified = Except.ok sdFullParams := by
  refine ⟨(C10_full_range_unless_mpeg AVPixelFormat.yuv420p
      AVColorSpace.smpte170m ⟨299/1000, 587/1000, 114/1000⟩ rfl).1, ?_, ?_⟩
  · exact (C10_full_range_unless_mpeg AVPixelFormat.yuvj420p
      AVColorSpace.smpte170m ⟨299/1000, 587/1000, 114/1000⟩ rfl).2
      AVColorRange.jpeg (by intro h; cases h)
  · exact (C10_full_range_unless_mpeg AVPixelFormat.yuv420p
      AVColorSpace.smpte170m ⟨299/1000, 587/1000, 114/1000⟩ rfl).2
      AVColorRange.unspecified (by intro h; cases h)

/-- C8: the per-frame orchestrator mutates the frame buffer only on a
    successful render with a resolvable colorspace: a renderer error
    yields `AVERROR_EXTERNAL` with the frame neither delivered nor
    touched; an empty render delivers the frame with every byte
    unchanged; a colorspace resolution failure in the YUV path returns
    that error with the frame untouched (the failure precedes any
    destination write) and undelivered; and whenever the frame state
    changed at all, the render was OK and — on the YUV path — the
    planar compositor succeeded. -/
theorem C8_filter_frame_effects (render : FlootayRenderResult) (srcm : Mem)
    (ss : ℕ) (fr : Frame) :
    (render = FlootayRenderResult.error →
      filter_frame render srcm ss fr =
        { frame := fr, delivered := false, ret := AVERROR_EXTERNAL }) ∧
    (render = FlootayRenderResult.empty →
      filter_frame render srcm ss fr =
        { frame := fr, delivered := true, ret := 0 }) ∧
    (∀ e, render = FlootayRenderResult.ok →
      fr.format ≠ AVPixelFormat.bgr24 →
      init_rgb2yuv fr.format fr.colorspace fr.color_range =
        Except.error e →
      filter_frame render srcm ss fr =
        { frame := fr, delivered := false, ret := e }) ∧
    ((filter_frame render srcm ss fr).frame ≠ fr →
      render = FlootayRenderResult.ok ∧
      (fr.format ≠ AVPixelFormat.bgr24 →
        ∃ rr, blend_surface_yuv fr.format fr.colorspace fr.color_range srcm
          ss fr.data0 fr.linesize0 fr.data1 fr.linesize1 fr.data2
          fr.linesize2 fr.width fr.height = Except.ok rr)) := by
  refine ⟨?_, ?_, ?_, ?_⟩
  · intro h
    subst h
    rfl
  · intro h
    subst h
    rfl
  · intro e hr hfmt hini
    subst hr
    have hb : blend_surface_yuv fr.format fr.colorspace fr.color_range srcm
        ss fr.data0 fr.linesize0 fr.data1 fr.linesize1 fr.data2
        fr.linesize2 fr.width fr.height = Except.error e := by
      unfold blend_surface_yuv
      rw [hini]
    unfold filter_frame
    rw [if_neg hfmt, hb]
  · intro hne
    cases render with
    | error => exact absurd rfl hne
    | empty => exact absurd rfl hne
    | ok =>
        refine ⟨rfl, ?_⟩
        intro hfmt
        rcases hb : blend_surface_yuv fr.format fr.colorspace fr.color_range
            srcm ss fr.data0 fr.linesize0 fr.data1 fr.linesize1 fr.data2
            fr.linesize2 fr.width fr.height with e | rr
        · have heq : filter_frame FlootayRenderResult.ok srcm ss fr =
              { frame := fr, delivered := false, ret := e } := by
            unfold filter_frame
            rw [if_neg hfmt, hb]
          rw [heq] at hne
          exact absurd rfl hne
        · exact ⟨rr, rfl⟩

/-- Witness for C8: a renderer error on a concrete frame. -/
theorem C8_filter_frame_effects_witness :
    filter_frame FlootayRenderResult.error (fun _ => 0) 0 testFrame =
      { frame := testFrame, delivered := false, ret := AVERROR_EXTERNAL } :=
  (C8_filter_frame_effects FlootayRenderResult.error (fun _ => 0) 0
    testFrame).1 rfl
